import Mathlib

/-!
# Particle network background (`src/script.js`)

A shallow embedding of the animated particle background of `script.js`
(lines 5-146): the `Particle` class with its `update` and `draw` methods,
`initParticles`, `resize`, `animateParticles` and the pointer handlers.

JavaScript numbers are modelled by `JSNum α`: an element of an ordered field
`α` (rounding and overflow of IEEE doubles are not modelled), or one of the
three non-finite values `NaN`, `+Infinity`, `-Infinity`, with the IEEE rules
for arithmetic and comparison on them.  The sign of zero is not modelled; the
only divisors of the program are `Math.sqrt` results and positive constants,
so a zero divisor is taken to be `+0`.

`Math.sqrt`, `Math.PI` and the stream of `Math.random()` results belong to the
host, they are parameters of the definitions that use them.
-/

namespace ParticleNetwork

/-- A JavaScript number: a finite value or `Infinity`, `-Infinity`, `NaN`. -/
inductive JSNum (α : Type) where
  | fin (v : α)
  | posInf
  | negInf
  | nan
  deriving DecidableEq

namespace JSNum

variable {α : Type} [LinearOrderedField α]

/-- Sign of a number for the infinity rules: `some true` for positive,
`some false` for negative, `none` for zero and `NaN`. -/
def isPos : JSNum α → Option Bool
  | fin v => if v = 0 then none else some (decide (0 < v))
  | posInf => some true
  | negInf => some false
  | nan => none

/-- The infinity of the given sign. -/
def signedInf (positive : Bool) : JSNum α :=
  if positive then posInf else negInf

/-- Unary minus. -/
def neg : JSNum α → JSNum α
  | fin v => fin (-v)
  | posInf => negInf
  | negInf => posInf
  | nan => nan

/-- The `+` of JavaScript on numbers. -/
def add : JSNum α → JSNum α → JSNum α
  | fin a, fin b => fin (a + b)
  | nan, _ => nan
  | _, nan => nan
  | posInf, negInf => nan
  | negInf, posInf => nan
  | posInf, _ => posInf
  | _, posInf => posInf
  | negInf, _ => negInf
  | _, negInf => negInf

/-- The `-` of JavaScript on numbers. -/
def sub (a b : JSNum α) : JSNum α :=
  add a (neg b)

/-- The `*` of JavaScript on numbers. -/
def mul : JSNum α → JSNum α → JSNum α
  | fin a, fin b => fin (a * b)
  | a, b =>
    match isPos a, isPos b with
    | some s, some t => signedInf (s == t)
    | _, _ => nan

/-- The `/` of JavaScript on numbers (a zero divisor counts as `+0`). -/
def div : JSNum α → JSNum α → JSNum α
  | fin a, fin b =>
    if b = 0 then
      (if a = 0 then nan else signedInf (decide (0 < a)))
    else fin (a / b)
  | nan, _ => nan
  | _, nan => nan
  | fin _, _ => fin 0
  | posInf, fin b => signedInf (decide (0 ≤ b))
  | negInf, fin b => signedInf (decide (b < 0))
  | _, _ => nan

/-- The function `Math.sqrt`, from the square root `f` on finite non-negative values. -/
def sqrt (f : α → α) : JSNum α → JSNum α
  | fin a => if a < 0 then nan else fin (f a)
  | posInf => posInf
  | negInf => nan
  | nan => nan

/-- The `<` of JavaScript on numbers: false as soon as one side is `NaN`. -/
def lt : JSNum α → JSNum α → Bool
  | fin a, fin b => decide (a < b)
  | nan, _ => false
  | _, nan => false
  | negInf, negInf => false
  | negInf, _ => true
  | posInf, _ => false
  | fin _, posInf => true
  | fin _, negInf => false

/-- The `>` of JavaScript on numbers. -/
def gt (a b : JSNum α) : Bool :=
  lt b a

instance : Add (JSNum α) := ⟨add⟩
instance : Sub (JSNum α) := ⟨sub⟩
instance : Mul (JSNum α) := ⟨mul⟩
instance : Div (JSNum α) := ⟨div⟩

/-- The conversion `ToNumber` applied to a value that is a number or `null`:
`null` converts to `0`. -/
def ofNullable : Option (JSNum α) → JSNum α
  | none => fin 0
  | some v => v

end JSNum

open JSNum

variable {α : Type} [LinearOrderedField α]

/-- The constant `connectionDistance` (line 18). -/
def connectionDistance : JSNum α := fin 150

/-- The constant `particleSpeed` (line 19). -/
def particleSpeed : JSNum α := fin (1 / 2)

/-- The object `mouse` (lines 22-26): `x` and `y` are `null` (`none`) or a number. -/
structure Mouse (α : Type) where
  x : Option (JSNum α)
  y : Option (JSNum α)
  radius : JSNum α

/-- The initial value of `mouse` (lines 22-26). -/
def Mouse.init : Mouse α :=
  { x := none, y := none, radius := fin 150 }

/-- An instance of class `Particle` (lines 46-53).  The field `ref` stands for
the identity of the object: every `new Particle()` gets a reference that no
earlier object has. -/
structure Particle (α : Type) where
  ref : Nat
  x : JSNum α
  y : JSNum α
  vx : JSNum α
  vy : JSNum α
  size : JSNum α

/-- The constructor of `Particle` (lines 47-53): `r0 .. r4` are the results of its
five calls of `Math.random()`, in order. -/
def Particle.new (ref : Nat) (width height : JSNum α) (r0 r1 r2 r3 r4 : α) : Particle α :=
  { ref := ref
    x := fin r0 * width
    y := fin r1 * height
    vx := (fin r2 - fin (1 / 2)) * particleSpeed
    vy := (fin r3 - fin (1 / 2)) * particleSpeed
    size := fin r4 * fin 2 + fin 1 }

/-- The method `Particle.update` (lines 55-82). -/
def Particle.update (sqrt : α → α) (width height : JSNum α) (mouse : Mouse α)
    (self : Particle α) : Particle α :=
  let x := self.x + self.vx
  let y := self.y + self.vy
  -- Bounce off edges
  let vx := if JSNum.lt x (fin 0) || JSNum.gt x width then self.vx * fin (-1) else self.vx
  let vy := if JSNum.lt y (fin 0) || JSNum.gt y height then self.vy * fin (-1) else self.vy
  if mouse.x.isSome then
    let dx := ofNullable mouse.x - x
    let dy := ofNullable mouse.y - y
    let distance := JSNum.sqrt sqrt (dx * dx + dy * dy)
    if JSNum.lt distance mouse.radius then
      let forceDirectionX := dx / distance
      let forceDirectionY := dy / distance
      let force := (mouse.radius - distance) / mouse.radius
      let directionX := forceDirectionX * force * particleSpeed
      let directionY := forceDirectionY * force * particleSpeed
      { self with x := x - directionX, y := y - directionY, vx := vx, vy := vy }
    else
      { self with x := x, y := y, vx := vx, vy := vy }
  else
    { self with x := x, y := y, vx := vx, vy := vy }

/-- A call on the 2D context `ctx` of the canvas.  `fillStyle`, `strokeStyle` and
`lineWidth` are the assignments to these properties; the stroke colour is always
`rgba(56, 189, 248, a)` and is recorded by its alpha `a`. -/
inductive CanvasOp (α : Type) where
  | clearRect (x y w h : JSNum α)
  | beginPath
  | arc (x y radius startAngle endAngle : JSNum α)
  | fillStyle (colour : String)
  | fill
  | strokeStyle (alpha : JSNum α)
  | lineWidth (w : JSNum α)
  | moveTo (x y : JSNum α)
  | lineTo (x y : JSNum α)
  | stroke

/-- The method `Particle.draw` (lines 84-89); `pi` is `Math.PI`. -/
def Particle.draw (pi : α) (self : Particle α) : List (CanvasOp α) :=
  [ CanvasOp.beginPath,
    CanvasOp.arc self.x self.y self.size (fin 0) (fin pi * fin 2),
    CanvasOp.fillStyle "rgba(56, 189, 248, 0.5)",
    CanvasOp.fill ]

/-- The distance that the inner loop of `animateParticles` measures between
`p` and `p2` (lines 110-112). -/
def linkDistance (sqrt : α → α) (p p2 : Particle α) : JSNum α :=
  let dx := p.x - p2.x
  let dy := p.y - p2.y
  JSNum.sqrt sqrt (dx * dx + dy * dy)

/-- The body of the inner loop of `animateParticles` (lines 109-121): the
canvas calls made for the pair `p`, `p2`. -/
def linkParticles (sqrt : α → α) (p p2 : Particle α) : List (CanvasOp α) :=
  let distance := linkDistance sqrt p p2
  if JSNum.lt distance connectionDistance then
    [ CanvasOp.beginPath,
      CanvasOp.strokeStyle (fin (15 / 100) - distance / connectionDistance * fin (15 / 100)),
      CanvasOp.lineWidth (fin 1),
      CanvasOp.moveTo p.x p.y,
      CanvasOp.lineTo p2.x p2.y,
      CanvasOp.stroke ]
  else []

/-- The connection of `p` to the mouse in `animateParticles` (lines 125-138). -/
def linkMouse (sqrt : α → α) (mouse : Mouse α) (p : Particle α) : List (CanvasOp α) :=
  if mouse.x.isSome then
    let dx := ofNullable mouse.x - p.x
    let dy := ofNullable mouse.y - p.y
    let distance := JSNum.sqrt sqrt (dx * dx + dy * dy)
    if JSNum.lt distance mouse.radius then
      [ CanvasOp.beginPath,
        CanvasOp.strokeStyle (fin (2 / 10) - distance / mouse.radius * fin (2 / 10)),
        CanvasOp.lineWidth (fin 1),
        CanvasOp.moveTo p.x p.y,
        CanvasOp.lineTo (ofNullable mouse.x) (ofNullable mouse.y),
        CanvasOp.stroke ]
    else []
  else []

/-- The variables of the particle background (lines 13-26), with the two
counters of the host that the program reads: how many results of
`Math.random()` have been consumed and the next unused object reference. -/
structure State (α : Type) where
  width : JSNum α
  height : JSNum α
  particles : List (Particle α)
  particleCount : Nat
  mouse : Mouse α
  randomCalls : Nat
  nextRef : Nat

/-- One pass of the loop of `initParticles` (line 95): `particles.push(new Particle())`,
with `rand k` the result of the `k`-th call of `Math.random()`. -/
def pushParticle (rand : Nat → α) (s : State α) : State α :=
  let k := s.randomCalls
  { s with
    particles := s.particles ++
      [Particle.new s.nextRef s.width s.height
        (rand k) (rand (k + 1)) (rand (k + 2)) (rand (k + 3)) (rand (k + 4))]
    randomCalls := k + 5
    nextRef := s.nextRef + 1 }

/-- The function `initParticles` (lines 92-97). -/
def initParticles (rand : Nat → α) (s : State α) : State α :=
  (List.range s.particleCount).foldl (fun st _ => pushParticle rand st)
    { s with particles := [] }

/-- The function `resize` (lines 40-44); `innerWidth` and `innerHeight` are the
values of `window.innerWidth` and `window.innerHeight` at the call. -/
def resize (rand : Nat → α) (innerWidth innerHeight : α) (s : State α) : State α :=
  initParticles rand { s with width := fin innerWidth, height := fin innerHeight }

/-- The inner loop of `animateParticles` (lines 108-122) for the particle `p` of
index `i`: `j` runs from `i + 1` to `particles.length - 1`. -/
def linkLoop (sqrt : α → α) (particles : List (Particle α)) (i : Nat) (p : Particle α)
    (ops : List (CanvasOp α)) : List (CanvasOp α) :=
  (List.range' (i + 1) (particles.length - (i + 1))).foldl
    (fun out j =>
      match particles[j]? with
      | some p2 => out ++ linkParticles sqrt p p2
      | none => out)
    ops

/-- The body of the outer loop of `animateParticles` (lines 103-138) at index `i`:
the particle `particles[i]` is updated in place and drawn, then linked to the
particles of larger index and to the mouse. -/
def animateStep (sqrt : α → α) (pi : α) (width height : JSNum α) (mouse : Mouse α)
    (acc : List (Particle α) × List (CanvasOp α)) (i : Nat) :
    List (Particle α) × List (CanvasOp α) :=
  match acc.1[i]? with
  | none => acc
  | some p0 =>
    let p := Particle.update sqrt width height mouse p0
    let particles := acc.1.set i p
    let ops := acc.2 ++ Particle.draw pi p
    let ops := linkLoop sqrt particles i p ops
    let ops := ops ++ linkMouse sqrt mouse p
    (particles, ops)

/-- The function `animateParticles` (lines 99-141): the state after the frame and
the canvas calls of the frame, in order.  The call of `requestAnimationFrame`
is the next `frame` event. -/
def animateParticles (sqrt : α → α) (pi : α) (s : State α) : State α × List (CanvasOp α) :=
  let start : List (Particle α) × List (CanvasOp α) :=
    (s.particles, [CanvasOp.clearRect (fin 0) (fin 0) s.width s.height])
  let result := (List.range s.particles.length).foldl
    (animateStep sqrt pi s.width s.height s.mouse) start
  ({ s with particles := result.1 }, result.2)

/-- The `mousemove` handler (lines 28-31); `ex`, `ey` are `e.x`, `e.y`. -/
def onMouseMove (ex ey : α) (s : State α) : State α :=
  { s with mouse := { s.mouse with x := some (fin ex), y := some (fin ey) } }

/-- The `mouseout` handler (lines 34-37). -/
def onMouseOut (s : State α) : State α :=
  { s with mouse := { s.mouse with x := none, y := none } }

/-- What can happen after startup: a pointer event, a resize of the window to
the given inner size, or an animation frame. -/
inductive Event (α : Type) where
  | mousemove (ex ey : α)
  | mouseout
  | resize (innerWidth innerHeight : α)
  | frame

/-- The reaction of the program to one event. -/
def step (rand : Nat → α) (sqrt : α → α) (pi : α) (s : State α) : Event α → State α
  | Event.mousemove ex ey => onMouseMove ex ey s
  | Event.mouseout => onMouseOut s
  | Event.resize w h => resize rand w h s
  | Event.frame => (animateParticles sqrt pi s).1

/-- The reaction of the program to a sequence of events. -/
def run (rand : Nat → α) (sqrt : α → α) (pi : α) (s : State α) (events : List (Event α)) :
    State α :=
  events.foldl (step rand sqrt pi) s

/-- The start of the script when `.background-grid` exists (lines 7-26 and
143-145) in a window of the given inner size: the configuration is fixed, then
`resize()` and the first `animateParticles()` run. -/
def startup (rand : Nat → α) (sqrt : α → α) (pi : α) (innerWidth innerHeight : α) : State α :=
  let s0 : State α :=
    { width := fin innerWidth
      height := fin innerHeight
      particles := []
      particleCount := if innerWidth < 768 then 40 else 80
      mouse := Mouse.init
      randomCalls := 0
      nextRef := 0 }
  (animateParticles sqrt pi (resize rand innerWidth innerHeight s0)).1

/-! ## Predicates and reference descriptions used in the statements -/

/-- Either the coordinate is inside `[0, w]` or the next integration brings it inside. -/
def NearInside (w x v : α) : Prop :=
  (0 ≤ x ∧ x ≤ w) ∨ (0 ≤ x + v ∧ x + v ≤ w)

/-- The canvas calls of one frame after `clearRect`, read off the loop of
`animateParticles`: the first particle of the list is updated and drawn, linked
to each later particle as that particle stands when the link is computed (its
own update of this frame comes later), then linked to the mouse; then the same
for the rest of the list. -/
def frameTrace (sqrt : α → α) (pi : α) (width height : JSNum α) (mouse : Mouse α) :
    List (Particle α) → List (CanvasOp α)
  | [] => []
  | p :: rest =>
    (Particle.update sqrt width height mouse p).draw pi ++
      rest.flatMap (linkParticles sqrt (Particle.update sqrt width height mouse p)) ++
      linkMouse sqrt mouse (Particle.update sqrt width height mouse p) ++
      frameTrace sqrt pi width height mouse rest

/-- A state of a session that started in a narrow window and was resized once, to
the inner size 800 x 600: forty particles inside the surface, pointer absent.  Particle 0 rests at
`(100, 100)`, particle 1 is at `(3999/16, 100)` and moves right by `1/8` per tick,
the other particles rest at `(700, 500)`. -/
def linkExample : State α :=
  { width := fin 800
    height := fin 600
    particles :=
      ⟨40, fin 100, fin 100, fin 0, fin 0, fin 1⟩ ::
      ⟨41, fin (3999 / 16), fin 100, fin (1 / 8), fin 0, fin 1⟩ ::
      (List.range 38).map (fun k => ⟨k + 42, fin 700, fin 500, fin 0, fin 0, fin 1⟩)
    particleCount := 40
    mouse := Mouse.init
    randomCalls := 400
    nextRef := 80 }

/-- Every particle of the collection is an object that exists: its reference is
below the next unused one. -/
def RefsAllocated (s : State α) : Prop :=
  ∀ p ∈ s.particles, p.ref < s.nextRef

/-! ## Arithmetic of finite numbers -/

namespace JSNum

@[simp] theorem fin_add_fin (a b : α) : (fin a + fin b : JSNum α) = fin (a + b) := rfl

@[simp] theorem fin_sub_fin (a b : α) : (fin a - fin b : JSNum α) = fin (a - b) := by
  show add (fin a) (neg (fin b)) = fin (a - b)
  simp [add, neg, sub_eq_add_neg]

@[simp] theorem fin_mul_fin (a b : α) : (fin a * fin b : JSNum α) = fin (a * b) := rfl

theorem fin_div_fin (a b : α) (hb : b ≠ 0) : (fin a / fin b : JSNum α) = fin (a / b) := by
  show div (fin a) (fin b) = fin (a / b)
  simp [div, hb]

theorem zero_div_zero : (fin 0 / fin 0 : JSNum α) = nan := by
  show div (fin 0) (fin 0) = nan
  simp [div]

@[simp] theorem lt_fin_fin (a b : α) : lt (fin a) (fin b) = decide (a < b) := rfl

@[simp] theorem gt_fin_fin (a b : α) : gt (fin a) (fin b) = decide (b < a) := rfl

end JSNum

/-! ## One update without pointer -/

/-- One `update` of a finite particle while the pointer is absent. -/
theorem Particle.update_absent (sqrt : α → α) (width height : α) (mouse : Mouse α)
    (hm : mouse.x = none) (ref : Nat) (x y vx vy : α) (size : JSNum α) :
    Particle.update sqrt (fin width) (fin height) mouse ⟨ref, fin x, fin y, fin vx, fin vy, size⟩ =
      ⟨ref, fin (x + vx), fin (y + vy),
        fin (if x + vx < 0 ∨ width < x + vx then -vx else vx),
        fin (if y + vy < 0 ∨ height < y + vy then -vy else vy), size⟩ := by
  unfold Particle.update
  simp only [hm, Option.isSome_none, Bool.false_eq_true, if_false, fin_add_fin, lt_fin_fin,
    gt_fin_fin, fin_mul_fin, Bool.or_eq_true, decide_eq_true_eq]
  congr 1
  · split <;> simp
  · split <;> simp

theorem NearInside.step {w x v : α} (h : NearInside w x v) :
    NearInside w (x + v) (if x + v < 0 ∨ w < x + v then -v else v) := by
  by_cases hc : x + v < 0 ∨ w < x + v
  · rw [if_pos hc]
    rcases h with h | h
    · right
      simpa using h
    · exfalso
      rcases hc with hc | hc
      · exact absurd h.1 (not_le.mpr hc)
      · exact absurd h.2 (not_le.mpr hc)
  · rw [if_neg hc]
    left
    push_neg at hc
    exact hc

/-- The number that `update` passes to `Math.sqrt` is never negative. -/
theorem sq_add_sq_not_neg (a b : α) : ¬ (a * a + b * b < 0) :=
  not_lt.mpr (add_nonneg (mul_self_nonneg a) (mul_self_nonneg b))

/-- One `update` of a finite particle whose distance to the pointer, measured after
integration, is not below the radius: no repulsion. -/
theorem Particle.update_far (sqrt : α → α) (width height mx my R : α)
    (ref : Nat) (x y vx vy : α) (size : JSNum α)
    (hd : ¬ sqrt ((mx - (x + vx)) * (mx - (x + vx)) + (my - (y + vy)) * (my - (y + vy))) < R) :
    Particle.update sqrt (fin width) (fin height) ⟨some (fin mx), some (fin my), fin R⟩
        ⟨ref, fin x, fin y, fin vx, fin vy, size⟩ =
      ⟨ref, fin (x + vx), fin (y + vy),
        fin (if x + vx < 0 ∨ width < x + vx then -vx else vx),
        fin (if y + vy < 0 ∨ height < y + vy then -vy else vy), size⟩ := by
  unfold Particle.update
  simp only [Option.isSome_some, if_true, ofNullable, fin_add_fin, fin_sub_fin, fin_mul_fin,
    JSNum.sqrt, if_neg (sq_add_sq_not_neg _ _), lt_fin_fin, gt_fin_fin, decide_eq_true_eq,
    if_neg hd, Bool.or_eq_true]
  congr 1
  · split <;> simp
  · split <;> simp

/-- One `update` of a finite particle whose distance `d` to the pointer, measured
after integration, satisfies `d < R` and `d ≠ 0`: the position is displaced by the
repulsion term. -/
theorem Particle.update_near (sqrt : α → α) (width height mx my R : α)
    (ref : Nat) (x y vx vy : α) (size : JSNum α) (hR : R ≠ 0)
    (hd : sqrt ((mx - (x + vx)) * (mx - (x + vx)) + (my - (y + vy)) * (my - (y + vy))) < R)
    (h0 : sqrt ((mx - (x + vx)) * (mx - (x + vx)) + (my - (y + vy)) * (my - (y + vy))) ≠ 0) :
    Particle.update sqrt (fin width) (fin height) ⟨some (fin mx), some (fin my), fin R⟩
        ⟨ref, fin x, fin y, fin vx, fin vy, size⟩ =
      ⟨ref,
        fin (x + vx - (mx - (x + vx)) /
          sqrt ((mx - (x + vx)) * (mx - (x + vx)) + (my - (y + vy)) * (my - (y + vy))) *
          ((R - sqrt ((mx - (x + vx)) * (mx - (x + vx)) + (my - (y + vy)) * (my - (y + vy)))) / R)
          * (1 / 2)),
        fin (y + vy - (my - (y + vy)) /
          sqrt ((mx - (x + vx)) * (mx - (x + vx)) + (my - (y + vy)) * (my - (y + vy))) *
          ((R - sqrt ((mx - (x + vx)) * (mx - (x + vx)) + (my - (y + vy)) * (my - (y + vy)))) / R)
          * (1 / 2)),
        fin (if x + vx < 0 ∨ width < x + vx then -vx else vx),
        fin (if y + vy < 0 ∨ height < y + vy then -vy else vy), size⟩ := by
  unfold Particle.update
  simp only [Option.isSome_some, if_true, ofNullable, fin_add_fin, fin_sub_fin, fin_mul_fin,
    JSNum.sqrt, if_neg (sq_add_sq_not_neg _ _), lt_fin_fin, gt_fin_fin, decide_eq_true_eq,
    if_pos hd, Bool.or_eq_true, fin_div_fin _ _ h0, fin_div_fin _ _ hR, particleSpeed]
  congr 1
  · split <;> simp
  · split <;> simp

/-- One `update` of a finite particle that the integration puts exactly on the
pointer, when `Math.sqrt(0)` is `0`: both `dx / distance` and `dy / distance`
are `0 / 0`, and the position becomes `NaN`. -/
theorem Particle.update_on_pointer (sqrt : α → α) (width height R : α)
    (ref : Nat) (x y vx vy : α) (size : JSNum α) (hs : sqrt 0 = 0) (hR : 0 < R) :
    Particle.update sqrt (fin width) (fin height) ⟨some (fin (x + vx)), some (fin (y + vy)), fin R⟩
        ⟨ref, fin x, fin y, fin vx, fin vy, size⟩ =
      ⟨ref, nan, nan,
        fin (if x + vx < 0 ∨ width < x + vx then -vx else vx),
        fin (if y + vy < 0 ∨ height < y + vy then -vy else vy), size⟩ := by
  unfold Particle.update
  simp only [Option.isSome_some, if_true, ofNullable, fin_add_fin, fin_sub_fin, fin_mul_fin,
    JSNum.sqrt, sub_self, mul_zero, add_zero, lt_self_iff_false, if_false, hs, lt_fin_fin,
    gt_fin_fin, decide_eq_true_eq, if_pos hR, Bool.or_eq_true, zero_div_zero]
  congr 1
  · split <;> simp
  · split <;> simp

/-! ## C1: bounds over repeated updates -/

/-- C4 (the code at the failing input): surface 800 x 600, pointer at `(100, 100)`,
particle at `(799/8, 801/8)` with velocity `(1/8, -1/8)`.  The integration puts the
particle on the pointer, the distance is `0 < 150`, the repulsion step is not
skipped: `dx / distance` and `dy / distance` are `0 / 0`, and the position after
`update` is `(NaN, NaN)`, not the integrated position `(100, 100)`. -/
theorem update_on_pointer_gives_nan :
    Particle.update Real.sqrt (fin 800) (fin 600) ⟨some (fin 100), some (fin 100), fin 150⟩
        ⟨0, fin (799 / 8), fin (801 / 8), fin (1 / 8), fin (-(1 / 8)), fin 1⟩ =
      ⟨0, nan, nan, fin (1 / 8 : ℝ), fin (-(1 / 8)), fin 1⟩ ∧
    (nan : JSNum ℝ) ≠ fin (799 / 8 + 1 / 8) ∧ (nan : JSNum ℝ) ≠ fin (801 / 8 + -(1 / 8)) := by
  have h := Particle.update_on_pointer Real.sqrt 800 600 150 0 (799 / 8) (801 / 8) (1 / 8)
    (-(1 / 8)) (fin 1) Real.sqrt_zero (by norm_num)
  norm_num at h
  exact ⟨h, by simp, by simp⟩

/-- C6 (the code at the failing input): surface 800 x 600, pointer at `(200, 300)`,
particle at `(1601/8, 2399/8)` with velocity `(-1/8, 1/8)`.  The distance from the
integrated position `(200, 300)` to the pointer is `0`, so `0 < d < R` is false,
and yet the position after `update` is `(NaN, NaN)` and differs from the
integrated position. -/
theorem repulsion_at_distance_zero :
    Real.sqrt ((200 - (1601 / 8 + -(1 / 8))) * (200 - (1601 / 8 + -(1 / 8))) +
      (300 - (2399 / 8 + 1 / 8)) * (300 - (2399 / 8 + 1 / 8))) = 0 ∧
    (Particle.update Real.sqrt (fin 800) (fin 600) ⟨some (fin 200), some (fin 300), fin 150⟩
        ⟨0, fin (1601 / 8), fin (2399 / 8), fin (-(1 / 8)), fin (1 / 8), fin 1⟩).x = nan ∧
    (Particle.update Real.sqrt (fin 800) (fin 600) ⟨some (fin 200), some (fin 300), fin 150⟩
        ⟨0, fin (1601 / 8), fin (2399 / 8), fin (-(1 / 8)), fin (1 / 8), fin 1⟩).y = nan ∧
    (nan : JSNum ℝ) ≠ fin (1601 / 8 + -(1 / 8)) ∧ (nan : JSNum ℝ) ≠ fin (2399 / 8 + 1 / 8) := by
  have h := Particle.update_on_pointer Real.sqrt 800 600 150 0 (1601 / 8) (2399 / 8) (-(1 / 8))
    (1 / 8) (fin 1) Real.sqrt_zero (by norm_num)
  norm_num at h
  refine ⟨by norm_num, by rw [h], by rw [h], by simp, by simp⟩

/-- C6 away from the pointer itself: for a finite particle and a pointer at
`(mx, my)` whose distance `d` to the integrated position is not `0`, the position
after `update` differs from the integrated position if and only if `d < 150`. -/
theorem repulsion_active_iff_off_pointer (width height mx my : ℝ)
    (ref : Nat) (x y vx vy : ℝ) (size : JSNum ℝ)
    (h0 : Real.sqrt ((mx - (x + vx)) * (mx - (x + vx)) + (my - (y + vy)) * (my - (y + vy))) ≠ 0) :
    ((Particle.update Real.sqrt (fin width) (fin height) ⟨some (fin mx), some (fin my), fin 150⟩
        ⟨ref, fin x, fin y, fin vx, fin vy, size⟩).x ≠ fin (x + vx) ∨
      (Particle.update Real.sqrt (fin width) (fin height) ⟨some (fin mx), some (fin my), fin 150⟩
        ⟨ref, fin x, fin y, fin vx, fin vy, size⟩).y ≠ fin (y + vy)) ↔
    Real.sqrt ((mx - (x + vx)) * (mx - (x + vx)) + (my - (y + vy)) * (my - (y + vy))) < 150 := by
  by_cases hd :
    Real.sqrt ((mx - (x + vx)) * (mx - (x + vx)) + (my - (y + vy)) * (my - (y + vy))) < 150
  · rw [Particle.update_near Real.sqrt width height mx my 150 ref x y vx vy size (by norm_num) hd h0]
    simp only [hd, iff_true]
    by_contra hc
    push_neg at hc
    obtain ⟨hcx, hcy⟩ := hc
    simp only [fin.injEq] at hcx hcy
    have hf : (150 - Real.sqrt ((mx - (x + vx)) * (mx - (x + vx)) +
        (my - (y + vy)) * (my - (y + vy)))) / 150 * (1 / 2) ≠ 0 := by
      apply mul_ne_zero _ (by norm_num)
      apply div_ne_zero _ (by norm_num)
      linarith
    have hx0 : mx - (x + vx) = 0 := by
      have h1 : (mx - (x + vx)) / Real.sqrt ((mx - (x + vx)) * (mx - (x + vx)) +
          (my - (y + vy)) * (my - (y + vy))) * ((150 - Real.sqrt ((mx - (x + vx)) *
          (mx - (x + vx)) + (my - (y + vy)) * (my - (y + vy)))) / 150 * (1 / 2)) = 0 := by
        linarith
      rcases mul_eq_zero.mp h1 with h2 | h2
      · rcases div_eq_zero_iff.mp h2 with h3 | h3
        · exact h3
        · exact absurd h3 h0
      · exact absurd h2 hf
    have hy0 : my - (y + vy) = 0 := by
      have h1 : (my - (y + vy)) / Real.sqrt ((mx - (x + vx)) * (mx - (x + vx)) +
          (my - (y + vy)) * (my - (y + vy))) * ((150 - Real.sqrt ((mx - (x + vx)) *
          (mx - (x + vx)) + (my - (y + vy)) * (my - (y + vy)))) / 150 * (1 / 2)) = 0 := by
        linarith
      rcases mul_eq_zero.mp h1 with h2 | h2
      · rcases div_eq_zero_iff.mp h2 with h3 | h3
        · exact h3
        · exact absurd h3 h0
      · exact absurd h2 hf
    apply h0
    rw [hx0, hy0]
    simp
  · rw [Particle.update_far Real.sqrt width height mx my 150 ref x y vx vy size hd]
    simp [hd]

/-! ## C7: the repulsion displacement -/

/-- The inner loop over the indices of a suffix `xs` of the array visits the
elements of `xs` in order. -/
theorem foldl_range_suffix {γ β : Type} (f : Particle γ → List β) (xs : List (Particle γ)) :
    ∀ (pre : List (Particle γ)) (ops : List β),
      (List.range' pre.length xs.length).foldl
        (fun out j =>
          match (pre ++ xs)[j]? with
          | some p2 => out ++ f p2
          | none => out) ops = ops ++ xs.flatMap f := by
  induction xs with
  | nil => intro pre ops; simp
  | cons a t ih =>
    intro pre ops
    have h := ih (pre ++ [a]) (ops ++ f a)
    simp only [List.length_append, List.length_singleton, List.append_assoc,
      List.singleton_append] at h
    simp only [List.length_cons, List.range'_succ, List.foldl_cons,
      List.getElem?_append_right (le_refl pre.length), Nat.sub_self, List.getElem?_cons_zero,
      List.flatMap_cons]
    rw [h]

theorem linkLoop_eq (sqrt : α → α) (pre xs : List (Particle α)) (i : Nat) (p : Particle α)
    (ops : List (CanvasOp α)) (hi : pre.length = i + 1) :
    linkLoop sqrt (pre ++ xs) i p ops = ops ++ xs.flatMap (linkParticles sqrt p) := by
  unfold linkLoop
  have hl : (pre ++ xs).length - (i + 1) = xs.length := by
    rw [List.length_append, hi]; omega
  rw [hl, ← hi]
  exact foldl_range_suffix (linkParticles sqrt p) xs pre ops

theorem animateStep_fold (sqrt : α → α) (pi : α) (width height : JSNum α) (mouse : Mouse α)
    (rest : List (Particle α)) :
    ∀ (done : List (Particle α)) (ops : List (CanvasOp α)),
      (List.range' done.length rest.length).foldl
        (animateStep sqrt pi width height mouse) (done ++ rest, ops) =
      (done ++ rest.map (Particle.update sqrt width height mouse),
        ops ++ frameTrace sqrt pi width height mouse rest) := by
  induction rest with
  | nil => intro done ops; simp [frameTrace]
  | cons p t ih =>
    intro done ops
    have h := ih (done ++ [Particle.update sqrt width height mouse p])
      (ops ++ (Particle.update sqrt width height mouse p).draw pi ++
        t.flatMap (linkParticles sqrt (Particle.update sqrt width height mouse p)) ++
        linkMouse sqrt mouse (Particle.update sqrt width height mouse p))
    simp only [List.length_append, List.length_singleton, List.append_assoc,
      List.singleton_append] at h
    have hstep : animateStep sqrt pi width height mouse (done ++ p :: t, ops) done.length =
        (done ++ Particle.update sqrt width height mouse p :: t,
          ops ++ ((Particle.update sqrt width height mouse p).draw pi ++
            (t.flatMap (linkParticles sqrt (Particle.update sqrt width height mouse p)) ++
            linkMouse sqrt mouse (Particle.update sqrt width height mouse p)))) := by
      unfold animateStep
      simp only [List.getElem?_append_right (le_refl done.length), Nat.sub_self,
        List.getElem?_cons_zero, List.set_append_right _ _ (le_refl done.length), List.set_cons_zero]
      have hl := linkLoop_eq sqrt (done ++ [Particle.update sqrt width height mouse p]) t
        done.length (Particle.update sqrt width height mouse p)
        (ops ++ (Particle.update sqrt width height mouse p).draw pi) (by simp)
      simp only [List.append_assoc, List.singleton_append] at hl
      rw [hl]
      simp only [List.append_assoc]
    simp only [List.length_cons, List.range'_succ, List.foldl_cons, hstep, List.map_cons,
      frameTrace, List.append_assoc]
    rw [h]

/-- The function `animateParticles` updates every particle once and issues
`clearRect` followed by the calls of `frameTrace`. -/
theorem animateParticles_eq (sqrt : α → α) (pi : α) (s : State α) :
    animateParticles sqrt pi s =
      ({ s with particles := s.particles.map (Particle.update sqrt s.width s.height s.mouse) },
        CanvasOp.clearRect (fin 0) (fin 0) s.width s.height ::
          frameTrace sqrt pi s.width s.height s.mouse s.particles) := by
  have h := animateStep_fold sqrt pi s.width s.height s.mouse s.particles []
    [CanvasOp.clearRect (fin 0) (fin 0) s.width s.height]
  simp only [List.length_nil, List.nil_append, List.singleton_append] at h
  unfold animateParticles
  simp only [List.range_eq_range', h]

/-- The canvas calls for a pair of particles at finite positions. -/
theorem linkParticles_fin (sqrt : α → α) (r1 r2 : Nat) (x1 y1 x2 y2 : α)
    (vx1 vy1 s1 vx2 vy2 s2 : JSNum α) :
    linkParticles sqrt ⟨r1, fin x1, fin y1, vx1, vy1, s1⟩ ⟨r2, fin x2, fin y2, vx2, vy2, s2⟩ =
      if sqrt ((x1 - x2) * (x1 - x2) + (y1 - y2) * (y1 - y2)) < 150 then
        [ CanvasOp.beginPath,
          CanvasOp.strokeStyle (fin (15 / 100 -
            sqrt ((x1 - x2) * (x1 - x2) + (y1 - y2) * (y1 - y2)) / 150 * (15 / 100))),
          CanvasOp.lineWidth (fin 1),
          CanvasOp.moveTo (fin x1) (fin y1),
          CanvasOp.lineTo (fin x2) (fin y2),
          CanvasOp.stroke ]
      else [] := by
  unfold linkParticles linkDistance connectionDistance
  simp only [fin_sub_fin, fin_mul_fin, fin_add_fin, JSNum.sqrt, if_neg (sq_add_sq_not_neg _ _),
    lt_fin_fin, decide_eq_true_eq, fin_div_fin _ _ (by norm_num : (150 : α) ≠ 0)]

/-! ## C2: which positions a link is computed from -/

/-- C2 (counterexample): one frame from `linkExample`.  After the frame particle 0
is at `(100, 100)` and particle 1 at `(4001/16, 100)`: their distance after the
updates is `2401/16 > 150`, and from these positions no link is drawn.  The frame
nevertheless draws the link of the pair, with the endpoint `(3999/16, 100)` that
particle 1 had before its update. -/
theorem link_uses_position_before_update :
    (animateParticles Real.sqrt Real.pi linkExample).1.particles.take 2 =
      [⟨40, fin 100, fin 100, fin 0, fin 0, fin 1⟩,
       ⟨41, fin (4001 / 16), fin 100, fin (1 / 8), fin 0, fin 1⟩] ∧
    linkParticles Real.sqrt ⟨40, fin 100, fin 100, fin 0, fin 0, fin 1⟩
      ⟨41, fin (4001 / 16), fin 100, fin (1 / 8), fin 0, fin 1⟩ = [] ∧
    (animateParticles Real.sqrt Real.pi linkExample).2.take 11 =
      [ CanvasOp.clearRect (fin 0) (fin 0) (fin 800) (fin 600),
        CanvasOp.beginPath,
        CanvasOp.arc (fin 100) (fin 100) (fin 1) (fin 0) (fin (Real.pi * 2)),
        CanvasOp.fillStyle "rgba(56, 189, 248, 0.5)",
        CanvasOp.fill,
        CanvasOp.beginPath,
        CanvasOp.strokeStyle (fin (15 / 100 - 2399 / 16 / 150 * (15 / 100))),
        CanvasOp.lineWidth (fin 1),
        CanvasOp.moveTo (fin 100) (fin 100),
        CanvasOp.lineTo (fin (3999 / 16)) (fin 100),
        CanvasOp.stroke ] := by
  have h0 : Particle.update Real.sqrt (fin 800) (fin 600) Mouse.init
      ⟨40, fin 100, fin 100, fin 0, fin 0, fin 1⟩ =
      ⟨40, fin (100 : ℝ), fin 100, fin 0, fin 0, fin 1⟩ := by
    rw [Particle.update_absent Real.sqrt 800 600 Mouse.init rfl]
    norm_num
  have h1 : Particle.update Real.sqrt (fin 800) (fin 600) Mouse.init
      ⟨41, fin (3999 / 16), fin 100, fin (1 / 8), fin 0, fin 1⟩ =
      ⟨41, fin (4001 / 16 : ℝ), fin 100, fin (1 / 8), fin 0, fin 1⟩ := by
    rw [Particle.update_absent Real.sqrt 800 600 Mouse.init rfl]
    norm_num
  have hs : Real.sqrt ((100 - 3999 / 16) * (100 - 3999 / 16) + (100 - 100) * (100 - 100)) =
      2399 / 16 := by
    rw [show ((100 : ℝ) - 3999 / 16) * (100 - 3999 / 16) + (100 - 100) * (100 - 100) =
      2399 / 16 * (2399 / 16) by norm_num]
    exact Real.sqrt_mul_self (by norm_num)
  have ht : Real.sqrt ((100 - 4001 / 16) * (100 - 4001 / 16) + (100 - 100) * (100 - 100)) =
      2401 / 16 := by
    rw [show ((100 : ℝ) - 4001 / 16) * (100 - 4001 / 16) + (100 - 100) * (100 - 100) =
      2401 / 16 * (2401 / 16) by norm_num]
    exact Real.sqrt_mul_self (by norm_num)
  have hl : linkParticles Real.sqrt ⟨40, fin 100, fin 100, fin 0, fin 0, fin 1⟩
      ⟨41, fin (3999 / 16), fin 100, fin (1 / 8), fin 0, fin 1⟩ =
      [ CanvasOp.beginPath,
        CanvasOp.strokeStyle (fin (15 / 100 - 2399 / 16 / 150 * (15 / 100))),
        CanvasOp.lineWidth (fin 1),
        CanvasOp.moveTo (fin 100) (fin 100),
        CanvasOp.lineTo (fin (3999 / 16)) (fin 100),
        CanvasOp.stroke ] := by
    rw [linkParticles_fin, hs, if_pos (by norm_num)]
  refine ⟨?_, ?_, ?_⟩
  · rw [animateParticles_eq]
    simp only [linkExample, List.map_cons, h0, h1, List.take_succ_cons, List.take_zero]
  · rw [linkParticles_fin, ht, if_neg (by norm_num)]
  · rw [animateParticles_eq]
    simp only [linkExample, frameTrace, h0, List.flatMap_cons, hl, Particle.draw, fin_mul_fin,
      List.cons_append, List.nil_append, List.take_succ_cons, List.take_zero]

/-- C2 (amended): in every frame `animateParticles` updates each particle exactly
once, and the canvas calls of the frame are `clearRect` followed by `frameTrace`:
for every pair `i < j` the link (the decision to draw it, its opacity and its
endpoints) is computed from the position of particle `i` after its update of this
frame and the position of particle `j` before its update of this frame. -/
theorem links_use_updated_first_and_stale_second (sqrt : α → α) (pi : α) (s : State α) :
    (animateParticles sqrt pi s).1.particles =
      s.particles.map (Particle.update sqrt s.width s.height s.mouse) ∧
    (animateParticles sqrt pi s).2 =
      CanvasOp.clearRect (fin 0) (fin 0) s.width s.height ::
        frameTrace sqrt pi s.width s.height s.mouse s.particles ∧
    ∀ (p : Particle α) (rest : List (Particle α)),
      frameTrace sqrt pi s.width s.height s.mouse (p :: rest) =
        (Particle.update sqrt s.width s.height s.mouse p).draw pi ++
        rest.flatMap (linkParticles sqrt (Particle.update sqrt s.width s.height s.mouse p)) ++
        linkMouse sqrt s.mouse (Particle.update sqrt s.width s.height s.mouse p) ++
        frameTrace sqrt pi s.width s.height s.mouse rest := by
  rw [animateParticles_eq]
  exact ⟨rfl, rfl, fun _ _ => rfl⟩

/-! ## C8: the opacity of a connection -/

/-- The method `update` returns the same object. -/
theorem Particle.update_ref (sqrt : α → α) (width height : JSNum α) (mouse : Mouse α)
    (p : Particle α) : (Particle.update sqrt width height mouse p).ref = p.ref := by
  unfold Particle.update
  dsimp only
  split <;> [split; skip] <;> rfl

/-- The loop of `initParticles` after `n` passes: `n` particles were appended, each
with a reference from `s.nextRef` on, and the configuration is untouched. -/
theorem pushParticle_fold (rand : Nat → α) (n : Nat) (s : State α) :
    ((List.range n).foldl (fun st _ => pushParticle rand st) s).particles.length =
        s.particles.length + n ∧
    ((List.range n).foldl (fun st _ => pushParticle rand st) s).particleCount =
        s.particleCount ∧
    ((List.range n).foldl (fun st _ => pushParticle rand st) s).nextRef = s.nextRef + n ∧
    ∀ p ∈ ((List.range n).foldl (fun st _ => pushParticle rand st) s).particles,
      p ∈ s.particles ∨ (s.nextRef ≤ p.ref ∧ p.ref < s.nextRef + n) := by
  induction n with
  | zero => exact ⟨rfl, rfl, rfl, fun p hp => Or.inl hp⟩
  | succ n ih =>
    obtain ⟨h1, h2, h3, h4⟩ := ih
    rw [List.range_succ, List.foldl_append]
    simp only [List.foldl_cons, List.foldl_nil]
    generalize List.foldl (fun st _ => pushParticle rand st) s (List.range n) = t at h1 h2 h3 h4 ⊢
    refine ⟨?_, ?_, ?_, ?_⟩
    · simp only [pushParticle, List.length_append, List.length_singleton, h1]
      omega
    · simp only [pushParticle, h2]
    · simp only [pushParticle, h3]
      omega
    · intro p hp
      simp only [pushParticle, List.mem_append, List.mem_singleton] at hp
      rcases hp with hp | hp
      · rcases h4 p hp with h | h
        · exact Or.inl h
        · exact Or.inr ⟨h.1, by omega⟩
      · right
        rw [hp]
        simp only [Particle.new, h3]
        omega

/-- After `initParticles` the collection holds `particleCount` particles, all of
them new objects. -/
theorem initParticles_spec (rand : Nat → α) (s : State α) :
    (initParticles rand s).particles.length = s.particleCount ∧
    (initParticles rand s).particleCount = s.particleCount ∧
    (initParticles rand s).nextRef = s.nextRef + s.particleCount ∧
    ∀ p ∈ (initParticles rand s).particles, s.nextRef ≤ p.ref ∧ p.ref < (initParticles rand s).nextRef := by
  obtain ⟨h1, h2, h3, h4⟩ := pushParticle_fold rand s.particleCount { s with particles := [] }
  unfold initParticles
  refine ⟨by simpa using h1, h2, h3, ?_⟩
  intro p hp
  rcases h4 p hp with h | h
  · simp at h
  · rw [h3]
    exact h

theorem step_particleCount (rand : Nat → α) (sqrt : α → α) (pi : α) (s : State α) (e : Event α) :
    (step rand sqrt pi s e).particleCount = s.particleCount := by
  cases e with
  | mousemove ex ey => rfl
  | mouseout => rfl
  | resize w h => exact (initParticles_spec rand _).2.1
  | frame => rw [step, animateParticles_eq]

theorem step_length (rand : Nat → α) (sqrt : α → α) (pi : α) (s : State α) (e : Event α)
    (hl : s.particles.length = s.particleCount) :
    (step rand sqrt pi s e).particles.length = s.particleCount := by
  cases e with
  | mousemove ex ey => exact hl
  | mouseout => exact hl
  | resize w h => exact (initParticles_spec rand _).1
  | frame => rw [step, animateParticles_eq]; simpa using hl

theorem step_refs (rand : Nat → α) (sqrt : α → α) (pi : α) (s : State α) (e : Event α)
    (hr : RefsAllocated s) :
    RefsAllocated (step rand sqrt pi s e) ∧ s.nextRef ≤ (step rand sqrt pi s e).nextRef := by
  cases e with
  | mousemove ex ey => exact ⟨hr, le_refl _⟩
  | mouseout => exact ⟨hr, le_refl _⟩
  | resize w h =>
    obtain ⟨-, -, h3, h4⟩ := initParticles_spec rand { s with width := fin w, height := fin h }
    refine ⟨fun p hp => (h4 p hp).2, ?_⟩
    show s.nextRef ≤ (initParticles rand { s with width := fin w, height := fin h }).nextRef
    rw [h3]
    exact Nat.le_add_right _ _
  | frame =>
    rw [step, animateParticles_eq]
    refine ⟨?_, le_refl _⟩
    intro p hp
    simp only [List.mem_map] at hp
    obtain ⟨q, hq, rfl⟩ := hp
    rw [Particle.update_ref]
    exact hr q hq

theorem run_append (rand : Nat → α) (sqrt : α → α) (pi : α) (s : State α)
    (es fs : List (Event α)) :
    run rand sqrt pi s (es ++ fs) = run rand sqrt pi (run rand sqrt pi s es) fs := by
  simp [run, List.foldl_append]

/-- What every sequence of events preserves: the particle count of the
configuration, the size of the collection, and the allocation of references. -/
theorem run_spec (rand : Nat → α) (sqrt : α → α) (pi : α) (es : List (Event α)) :
    ∀ s : State α, s.particles.length = s.particleCount → RefsAllocated s →
      (run rand sqrt pi s es).particleCount = s.particleCount ∧
      (run rand sqrt pi s es).particles.length = s.particleCount ∧
      RefsAllocated (run rand sqrt pi s es) ∧
      s.nextRef ≤ (run rand sqrt pi s es).nextRef := by
  induction es with
  | nil => intro s hl hr; exact ⟨rfl, hl, hr, le_refl _⟩
  | cons e es ih =>
    intro s hl hr
    have hc := step_particleCount rand sqrt pi s e
    have hl2 := step_length rand sqrt pi s e hl
    obtain ⟨hr2, hn2⟩ := step_refs rand sqrt pi s e hr
    obtain ⟨h1, h2, h3, h4⟩ := ih (step rand sqrt pi s e) (by rw [hl2, hc]) hr2
    refine ⟨?_, ?_, h3, le_trans hn2 h4⟩
    · show (run rand sqrt pi (step rand sqrt pi s e) es).particleCount = _
      rw [h1, hc]
    · show (run rand sqrt pi (step rand sqrt pi s e) es).particles.length = _
      rw [h2, hc]

/-- The state after startup: the count is chosen from the inner width, the
collection has that many particles, all allocated. -/
theorem startup_spec (rand : Nat → α) (sqrt : α → α) (pi : α) (innerWidth innerHeight : α) :
    (startup rand sqrt pi innerWidth innerHeight).particleCount =
      (if innerWidth < 768 then 40 else 80) ∧
    (startup rand sqrt pi innerWidth innerHeight).particles.length =
      (if innerWidth < 768 then 40 else 80) ∧
    RefsAllocated (startup rand sqrt pi innerWidth innerHeight) := by
  unfold startup
  simp only [animateParticles_eq]
  obtain ⟨h1, h2, -, h4⟩ := initParticles_spec rand
    ({ width := fin innerWidth, height := fin innerHeight, particles := [],
       particleCount := if innerWidth < 768 then 40 else 80, mouse := Mouse.init,
       randomCalls := 0, nextRef := 0 } : State α)
  refine ⟨h2, ?_, ?_⟩
  · simpa [resize] using h1
  · intro p hp
    simp only [List.mem_map] at hp
    obtain ⟨q, hq, rfl⟩ := hp
    rw [Particle.update_ref]
    exact (h4 q hq).2

/-! ## C9: the particle count after reseeding -/

/-- C9: after every call of `initParticles`, and so after every `resize` to any
size from any state, the collection holds exactly `particleCount` particles and
`particleCount` is unchanged; two calls of `initParticles` in a row give that count
both times; and after startup in a window of inner width `w0`, whatever events
follow, a resize to any size leaves exactly `40` particles if `w0 < 768` and `80`
otherwise (the new width plays no part). -/
theorem reseed_count (rand : Nat → α) (sqrt : α → α) (pi : α) :
    (∀ s : State α,
      (initParticles rand s).particles.length = s.particleCount ∧
      (initParticles rand s).particleCount = s.particleCount) ∧
    (∀ (s : State α) (w h : α),
      (resize rand w h s).particles.length = s.particleCount ∧
      (resize rand w h s).particleCount = s.particleCount) ∧
    (∀ s : State α,
      (initParticles rand s).particles.length = s.particleCount ∧
      (initParticles rand (initParticles rand s)).particles.length = s.particleCount) ∧
    (∀ (w0 h0 : α) (es : List (Event α)) (w h : α),
      (startup rand sqrt pi w0 h0).particleCount = (if w0 < 768 then 40 else 80) ∧
      (resize rand w h (run rand sqrt pi (startup rand sqrt pi w0 h0) es)).particleCount =
        (if w0 < 768 then 40 else 80) ∧
      (resize rand w h (run rand sqrt pi (startup rand sqrt pi w0 h0) es)).particles.length =
        (if w0 < 768 then 40 else 80)) := by
  refine ⟨?_, ?_, ?_, ?_⟩
  · intro s
    exact ⟨(initParticles_spec rand s).1, (initParticles_spec rand s).2.1⟩
  · intro s w h
    exact ⟨(initParticles_spec rand _).1, (initParticles_spec rand _).2.1⟩
  · intro s
    refine ⟨(initParticles_spec rand s).1, ?_⟩
    rw [(initParticles_spec rand (initParticles rand s)).1, (initParticles_spec rand s).2.1]
  · intro w0 h0 es w h
    obtain ⟨hc, hl, hr⟩ := startup_spec rand sqrt pi w0 h0
    obtain ⟨h1, -, -, -⟩ := run_spec rand sqrt pi es (startup rand sqrt pi w0 h0)
      (by rw [hl, hc]) hr
    refine ⟨hc, ?_, ?_⟩
    · show (initParticles rand _).particleCount = _
      rw [(initParticles_spec rand _).2.1]
      show (run rand sqrt pi (startup rand sqrt pi w0 h0) es).particleCount = _
      rw [h1, hc]
    · show (initParticles rand _).particles.length = _
      rw [(initParticles_spec rand _).1]
      show (run rand sqrt pi (startup rand sqrt pi w0 h0) es).particleCount = _
      rw [h1, hc]

/-! ## C3: startup at width 500, then resize to width 1024 -/

/-- C3 (counterexample): the script starts in a window of inner size 500 x 800 and
the window is then resized to 1024 x 768 (every `Math.random()` result being
`1/2`): after the resize the collection holds `40` particles, not `80`. -/
theorem resize_keeps_startup_count :
    (run (fun _ => (1 / 2 : ℝ)) Real.sqrt Real.pi
      (startup (fun _ => (1 / 2 : ℝ)) Real.sqrt Real.pi 500 800)
      [Event.resize 1024 768]).particles.length = 40 ∧
    (run (fun _ => (1 / 2 : ℝ)) Real.sqrt Real.pi
      (startup (fun _ => (1 / 2 : ℝ)) Real.sqrt Real.pi 500 800)
      [Event.resize 1024 768]).particles.length ≠ 80 := by
  obtain ⟨hc, hl, hr⟩ := startup_spec (fun _ => (1 / 2 : ℝ)) Real.sqrt Real.pi 500 800
  obtain ⟨-, h2, -, -⟩ := run_spec (fun _ => (1 / 2 : ℝ)) Real.sqrt Real.pi
    [Event.resize 1024 768] (startup (fun _ => (1 / 2 : ℝ)) Real.sqrt Real.pi 500 800)
    (by rw [hl, hc]) hr
  have h40 : (startup (fun _ => (1 / 2 : ℝ)) Real.sqrt Real.pi 500 800).particleCount = 40 := by
    rw [hc, if_pos (by norm_num)]
  rw [h2, h40]
  exact ⟨rfl, by decide⟩

/-- C3 (amended): when the script starts at viewport width 500 the field is seeded
with exactly 40 particles, and after a subsequent resize to viewport width 1024
(whatever the heights, the random numbers and the events in between) the field is
reseeded with exactly 40 particles, none of which is a particle object that was in
the collection at any moment before the resize. -/
theorem resize_scenario (rand : Nat → α) (sqrt : α → α) (pi : α) (h0 h1 : α)
    (es : List (Event α)) :
    (startup rand sqrt pi 500 h0).particles.length = 40 ∧
    (run rand sqrt pi (startup rand sqrt pi 500 h0)
      (es ++ [Event.resize 1024 h1])).particles.length = 40 ∧
    ∀ p ∈ (run rand sqrt pi (startup rand sqrt pi 500 h0)
        (es ++ [Event.resize 1024 h1])).particles,
      ∀ (k : Nat), ∀ q ∈ (run rand sqrt pi (startup rand sqrt pi 500 h0) (es.take k)).particles,
        p.ref ≠ q.ref := by
  obtain ⟨hc, hl, hr⟩ := startup_spec rand sqrt pi 500 h0
  rw [if_pos (by norm_num)] at hc hl
  have hlc : (startup rand sqrt pi 500 h0).particles.length =
      (startup rand sqrt pi 500 h0).particleCount := by rw [hl, hc]
  refine ⟨hl, ?_, ?_⟩
  · rw [(run_spec rand sqrt pi (es ++ [Event.resize 1024 h1]) _ hlc hr).2.1, hc]
  · intro p hp k q hq
    obtain ⟨a1, a2, a3, -⟩ := run_spec rand sqrt pi (es.take k) _ hlc hr
    have hsplit : run rand sqrt pi (startup rand sqrt pi 500 h0) es =
        run rand sqrt pi (run rand sqrt pi (startup rand sqrt pi 500 h0) (es.take k))
          (es.drop k) := by
      rw [← run_append, List.take_append_drop]
    obtain ⟨-, -, -, b4⟩ := run_spec rand sqrt pi (es.drop k)
      (run rand sqrt pi (startup rand sqrt pi 500 h0) (es.take k)) (by rw [a2, a1]) a3
    rw [← hsplit] at b4
    have hq2 : q.ref < (run rand sqrt pi (startup rand sqrt pi 500 h0) es).nextRef :=
      lt_of_lt_of_le (a3 q hq) b4
    rw [run_append] at hp
    have hp2 := (initParticles_spec rand
      { run rand sqrt pi (startup rand sqrt pi 500 h0) es with
        width := fin 1024, height := fin h1 }).2.2.2 p hp
    have hp3 : (run rand sqrt pi (startup rand sqrt pi 500 h0) es).nextRef ≤ p.ref := hp2.1
    omega

end ParticleNetwork
